import Mathlib

/-!
Verification of the GauFRe feature-extraction pipeline (`extract_features.py`).

The development shallowly embeds the alignment and view-selection pipeline:
the stride-grid padding arithmetic (Grid Aligner), the mask binarization and
visibility scoring, the cross-frame visibility tracker, the masked-crop
construction, and the driver's image-size handling.  Pixel tensors are
modelled as flat lists of natural numbers (`np.uint8` values are
non-negative and all operations here stay within bounds, so `Nat` is
exact); dictionaries keyed by object id are modelled as association lists
that preserve insertion order, as Python dicts do.
-/

namespace GauFRe

/-! ### Grid Aligner (extract_features.py lines 47-53)

`H_14, W_14 = ceil(H / 14) * 14, ceil(W / 14) * 14` and the four paddings
`ceil((H_14 - H) / 2)`, `floor((H_14 - H) / 2)`, `ceil((W_14 - W) / 2)`,
`floor((W_14 - W) / 2)`.  For natural `n`, `ceil(n / 14) * 14` is
`(n + 13) / 14 * 14` and `ceil(d / 2)` is `(d + 1) / 2`, with `/` the
truncating `Nat` division (Python `floor`). -/

def H_14 (H : Nat) : Nat := (H + 13) / 14 * 14

def W_14 (W : Nat) : Nat := (W + 13) / 14 * 14

def padding_top (H : Nat) : Nat := (H_14 H - H + 1) / 2

def padding_bottom (H : Nat) : Nat := (H_14 H - H) / 2

def padding_left (W : Nat) : Nat := (W_14 W - W + 1) / 2

def padding_right (W : Nat) : Nat := (W_14 W - W) / 2

/-- The assertion at lines 50-53 of the source:
`H + padding_top + padding_bottom == H_14 and W + padding_left + padding_right == W_14`. -/
def paddingAssertion (H W : Nat) : Prop :=
  H + padding_top H + padding_bottom H = H_14 H ∧
  W + padding_left W + padding_right W = W_14 W

instance (H W : Nat) : Decidable (paddingAssertion H W) := by
  unfold paddingAssertion; infer_instance

/-! ### Mask binarization and visibility score (lines 80-81, 104-105)

`mask_data //= max(1, mask_data.max())` followed by `mask_data.sum()`.
A mask is a flat list of the channel values of all pixels (the `RGB`
conversion concatenates three channels per pixel; the flat view is all
`np` elementwise operations see). -/

def maxVal (xs : List Nat) : Nat := xs.foldl max 0

/-- Elementwise floor division of every entry by `max 1 (maxVal xs)`,
the translation of `mask_data //= max(1, mask_data.max())`. -/
def binarize (xs : List Nat) : List Nat := xs.map (fun v => v / max 1 (maxVal xs))

/-- The visibility score `mask_data.sum()` computed after the division. -/
def maskScore (xs : List Nat) : Nat := (binarize xs).sum

/-- Count of the strictly positive entries of a mask.  This is the
spec-side notion of "sum of binarized mask pixels" where binarization
sends any positive pixel to 1. -/
def countPositive (xs : List Nat) : Nat := (xs.filter (fun v => 0 < v)).length

/-! ### Visibility Tracker (lines 82-85)

`most_visible` is a Python dict mapping an object directory name to the
pair `[score, file]`; it is modelled as an insertion-ordered association
list.  The per-key update is: insert on first sight, otherwise replace
only when the new score is strictly greater. -/

/-- One update of the record stored for a single object id, from lines
82-85: absent keys are inserted, present keys are replaced only when the
new score is strictly greater than the stored one. -/
def updateRecord (cur : Option (Nat × String)) (score : Nat) (file : String) :
    Option (Nat × String) :=
  match cur with
  | none => some (score, file)
  | some (s, f) => if score > s then some (score, file) else some (s, f)

/-- The record retained for one object id after scanning a list of
`(score, file)` observations in order. -/
def trackVisibility (obs : List (Nat × String)) : Option (Nat × String) :=
  obs.foldl (fun cur o => updateRecord cur o.1 o.2) none

/-- The `most_visible` dict: entries `(dir, score, file)` in insertion order. -/
abbrev MostVisible := List (String × Nat × String)

def lookupMV (mv : MostVisible) (d : String) : Option (Nat × String) :=
  (mv.find? (fun e => e.1 == d)).map (fun e => e.2)

/-- `most_visible[dir] = [score, file]`: dict assignment preserving
insertion order (a Python dict keeps the original position of an existing
key). -/
def updateMV (mv : MostVisible) (d : String) (score : Nat) (file : String) :
    MostVisible :=
  match lookupMV mv d with
  | none => mv ++ [(d, score, file)]
  | some (s, _) =>
    if score > s then mv.map (fun e => if e.1 == d then (d, score, file) else e)
    else mv

/-! ### The visibility scan (lines 43-86, mask part)

For each frame and each discovered object directory the source opens the
mask file (`Image.open` raises if the file is absent — modelled by the
`masks` map returning `none`), calls `mask.resize((W, H))` whose result is
not bound to anything, binarizes the stored-resolution mask data and
updates `most_visible`. -/

def scanFrameDirs (masks : String → String → Option (List Nat))
    (resize : List Nat → Nat × Nat → List Nat) (file : String) (W H : Nat) :
    List String → MostVisible → Except String MostVisible
  | [], mv => .ok mv
  | d :: rest, mv =>
    match masks d file with
    | none => .error "FileNotFoundError"
    | some mask =>
      let _resized := resize mask (W, H)
      scanFrameDirs masks resize file W H rest (updateMV mv d (maskScore mask) file)

/-- The scan over the frame list: each frame contributes one pass over
`dirs`.  Frames are `(file, H, W)` with `H, W` the working image shape. -/
def visibilityScan (masks : String → String → Option (List Nat))
    (resize : List Nat → Nat × Nat → List Nat) (dirs : List String) :
    List (String × Nat × Nat) → MostVisible → Except String MostVisible
  | [], mv => .ok mv
  | (file, H, W) :: rest, mv =>
    match scanFrameDirs masks resize file W H dirs mv with
    | .error e => .error e
    | .ok mv2 => visibilityScan masks resize dirs rest mv2

/-! ### Row assignment of the embedding table (line 90)

`dir_to_idx = {dir_name: idx for idx, dir_name in enumerate(sorted(dirs))}`. -/

def sortedDirs (dirs : List String) : List String :=
  dirs.mergeSort (fun a b => a ≤ b)

def dir_to_idx (dirs : List String) (d : String) : Nat :=
  (sortedDirs dirs).indexOf d

/-! ### Masked Crop Builder (lines 104-106)

`mask_data //= max(1, mask_data.max())` then `mask_data * image`
elementwise. -/

def masked_image (mask_data image : List Nat) : List Nat :=
  List.zipWith (fun m p => m * p) mask_data image

/-! ### Sequence Driver image-size handling (lines 143-166)

With the default `--downsample -1`, an image of height above 1080 reaches
`if not WARNED`, a read of a module global that no assignment precedes, so
Python raises `NameError`.  `warned : Option Bool` models the global:
`none` is "name not defined", reading it raises. -/

def processImageSize (downsample : Int) (warned : Option Bool) (orig_w orig_h : Nat) :
    Except String (Option Bool × ℚ) :=
  if downsample = -1 then
    if orig_h > 1080 then
      match warned with
      | none => .error "NameError"
      | some w =>
        let warned2 := if !w then some true else some w
        .ok (warned2, (orig_h : ℚ) / 1080)
    else .ok (warned, 1)
  else .ok (warned, (orig_w : ℚ) / (downsample : ℚ))

/-- The driver loop over the image files, threading the `WARNED` global and
collecting each frame's `global_down` rescale factor. -/
def driverScan (downsample : Int) :
    Option Bool → List (Nat × Nat) → Except String (Option Bool × List ℚ)
  | warned, [] => .ok (warned, [])
  | warned, (w, h) :: rest =>
    match processImageSize downsample warned w h with
    | .error e => .error e
    | .ok (warned2, scale) =>
      match driverScan downsample warned2 rest with
      | .error e => .error e
      | .ok (warned3, scales) => .ok (warned3, scale :: scales)

/-! ## Theorems -/

/-- C1: for every frame height `H ≥ 1` and width `W ≥ 1` with stride 14, the
Grid Aligner's paddings sum to `gridH - H` (resp. `gridW - W`), each pair
differs by at most 1, the asserted postcondition
`H + padTop + padBottom == gridH ∧ W + padLeft + padRight == gridW` holds,
and the concrete instance `H = 100, W = 150` gives
`gridH = 112, gridW = 154, padTop = padBottom = 6, padLeft = padRight = 2`. -/
theorem gridAligner_correct (H W : Nat) (hH : 1 ≤ H) (hW : 1 ≤ W) :
    (padding_top H + padding_bottom H = H_14 H - H ∧
     padding_left W + padding_right W = W_14 W - W) ∧
    (padding_top H - padding_bottom H ≤ 1 ∧ padding_bottom H - padding_top H ≤ 1 ∧
     padding_left W - padding_right W ≤ 1 ∧ padding_right W - padding_left W ≤ 1) ∧
    paddingAssertion H W ∧
    (H_14 100 = 112 ∧ W_14 150 = 154 ∧ padding_top 100 = 6 ∧ padding_bottom 100 = 6 ∧
     padding_left 150 = 2 ∧ padding_right 150 = 2) := by
  refine ⟨?_, ?_, ?_, by decide⟩
  · unfold padding_top padding_bottom padding_left padding_right H_14 W_14
    omega
  · unfold padding_top padding_bottom padding_left padding_right H_14 W_14
    omega
  · unfold paddingAssertion padding_top padding_bottom padding_left padding_right H_14 W_14
    omega

/-- Closed instance of `gridAligner_correct` at `H = 100`, `W = 150`. -/
theorem gridAligner_correct_witness :
    (padding_top 100 + padding_bottom 100 = H_14 100 - 100 ∧
     padding_left 150 + padding_right 150 = W_14 150 - 150) ∧
    (padding_top 100 - padding_bottom 100 ≤ 1 ∧ padding_bottom 100 - padding_top 100 ≤ 1 ∧
     padding_left 150 - padding_right 150 ≤ 1 ∧ padding_right 150 - padding_left 150 ≤ 1) ∧
    paddingAssertion 100 150 ∧
    (H_14 100 = 112 ∧ W_14 150 = 154 ∧ padding_top 100 = 6 ∧ padding_bottom 100 = 6 ∧
     padding_left 150 = 2 ∧ padding_right 150 = 2) :=
  gridAligner_correct 100 150 (by decide) (by decide)

/-- C8: for every `H, W ≥ 1` and pixel `(y, x)` of the original unpadded
image, the recovered grid cell `((y + padTop) / 14, (x + padLeft) / 14)`
lies inside the grid: its row index is below `gridH / 14` and its column
index below `gridW / 14`. -/
theorem gridCell_inBounds (H W y x : Nat) (hy : y < H) (hx : x < W) :
    (y + padding_top H) / 14 < H_14 H / 14 ∧
    (x + padding_left W) / 14 < W_14 W / 14 := by
  unfold padding_top padding_left H_14 W_14
  constructor <;> omega

/-- Closed instance of `gridCell_inBounds` at `H = 100`, `W = 150`,
`y = 99`, `x = 0`. -/
theorem gridCell_inBounds_witness :
    (99 + padding_top 100) / 14 < H_14 100 / 14 ∧
    (0 + padding_left 150) / 14 < W_14 150 / 14 :=
  gridCell_inBounds 100 150 99 0 (by decide) (by decide)

/-- C5: an all-zero mask gets visibility score 0 (the divisor
`max 1 (mask_data.max())` is guarded, so the division is by 1), and an
update with score 0 never replaces a stored record holding a positive
score. -/
theorem zeroMask_never_overwrites :
    (∀ xs : List Nat, (∀ v ∈ xs, v = 0) → maskScore xs = 0) ∧
    (∀ (mv : MostVisible) (d f0 file : String) (s0 : Nat),
      lookupMV mv d = some (s0, f0) → 0 < s0 → updateMV mv d 0 file = mv) := by
  constructor
  · intro xs h
    unfold maskScore binarize
    refine List.sum_eq_zero ?_
    intro v hv
    rcases List.mem_map.mp hv with ⟨w, hw, rfl⟩
    rw [h w hw]
    simp
  · intro mv d f0 file s0 hlook hpos
    unfold updateMV
    rw [hlook]
    simp

/-- Closed instance of `zeroMask_never_overwrites`: the all-zero mask
`[0, 0, 0]` scores 0, and a zero-score update leaves a stored score of 5
in place. -/
theorem zeroMask_never_overwrites_witness :
    maskScore [0, 0, 0] = 0 ∧ updateMV [("a", 5, "f")] "a" 0 "g" = [("a", 5, "f")] :=
  ⟨zeroMask_never_overwrites.1 [0, 0, 0] (by decide),
   zeroMask_never_overwrites.2 [("a", 5, "f")] "a" "f" "g" 5 (by decide) (by decide)⟩

/-- C3 counterexample: the claim says every positive pixel binarizes to 1
for all masks regardless of which positive values they contain, but on the
mask `[1, 2]` the code's `mask_data //= max(1, mask_data.max())` turns the
positive pixel `1` into `0`, and the score is 1 while the count of
positive entries is 2. -/
theorem binarize_positive_cex :
    0 < (1 : Nat) ∧ binarize [1, 2] = [0, 1] ∧
    maskScore [1, 2] = 1 ∧ countPositive [1, 2] = 2 := by decide

/-- C7: the masked crop `mask_data * image` is pointwise: wherever the
binarized mask is 0 the crop is exactly 0, and wherever it is 1 the crop
equals the source pixel. -/
theorem maskedCrop_correct (m img : List Nat) (i : Nat)
    (hlen : m.length = img.length) (hi : i < m.length) :
    ((binarize m).getD i 0 = 0 → (masked_image (binarize m) img).getD i 0 = 0) ∧
    ((binarize m).getD i 0 = 1 → (masked_image (binarize m) img).getD i 0 = img.getD i 0) := by
  have hb : (binarize m).length = m.length := by
    unfold binarize; exact List.length_map m _
  have hz : (masked_image (binarize m) img).length = m.length := by
    unfold masked_image
    rw [List.length_zipWith, hb, hlen, min_self]
  have hi2 : i < (binarize m).length := by omega
  have hi3 : i < img.length := by omega
  have hi4 : i < (masked_image (binarize m) img).length := by omega
  have hval : (masked_image (binarize m) img).getD i 0 =
      (binarize m).getD i 0 * img.getD i 0 := by
    rw [List.getD_eq_getElem _ _ hi4, List.getD_eq_getElem _ _ hi2,
      List.getD_eq_getElem _ _ hi3]
    unfold masked_image
    exact List.getElem_zipWith
  rw [hval]
  constructor
  · intro h; rw [h]; exact Nat.zero_mul _
  · intro h; rw [h]; exact Nat.one_mul _

/-- Closed instance of `maskedCrop_correct` on mask `[0, 255, 255]`,
image `[7, 8, 9]`, position 0. -/
theorem maskedCrop_correct_witness :
    ((binarize [0, 255, 255]).getD 0 0 = 0 →
      (masked_image (binarize [0, 255, 255]) [7, 8, 9]).getD 0 0 = 0) ∧
    ((binarize [0, 255, 255]).getD 0 0 = 1 →
      (masked_image (binarize [0, 255, 255]) [7, 8, 9]).getD 0 0 = [7, 8, 9].getD 0 0) :=
  maskedCrop_correct [0, 255, 255] [7, 8, 9] 0 (by decide) (by decide)

/-! ### The visibility tracker keeps the first maximum -/

/-- Maximum of the scores of a list of observations. -/
def listMaxScore (obs : List (Nat × String)) : Nat := (obs.map Prod.fst).foldl max 0

theorem foldl_max_eq (l : List Nat) : ∀ a : Nat, l.foldl max a = max a (l.foldl max 0) := by
  induction l with
  | nil => intro a; simp
  | cons b l ih =>
    intro a
    rw [List.foldl_cons, List.foldl_cons, ih (max a b), ih (max 0 b)]
    omega

theorem listMaxScore_cons (o : Nat × String) (rest : List (Nat × String)) :
    listMaxScore (o :: rest) = max o.1 (listMaxScore rest) := by
  unfold listMaxScore
  rw [List.map_cons, List.foldl_cons, foldl_max_eq]
  omega

theorem foldl_updateRecord_eq_find (obs : List (Nat × String)) :
    ∀ (s : Nat) (f : String),
      List.foldl (fun cur o => updateRecord cur o.1 o.2) (some (s, f)) obs =
      List.find? (fun o => decide (max s (listMaxScore obs) ≤ o.1)) ((s, f) :: obs) := by
  induction obs with
  | nil =>
    intro s f
    rw [List.find?_cons_of_pos]
    · rfl
    · simp [listMaxScore]
  | cons o rest ih =>
    intro s f
    rw [List.foldl_cons, listMaxScore_cons]
    show List.foldl _ (updateRecord (some (s, f)) o.1 o.2) rest = _
    have hstep : updateRecord (some (s, f)) o.1 o.2 =
        if o.1 > s then some (o.1, o.2) else some (s, f) := rfl
    rw [hstep]
    by_cases hgt : o.1 > s
    · rw [if_pos hgt, ih o.1 o.2]
      have hK : max s (max o.1 (listMaxScore rest)) = max o.1 (listMaxScore rest) := by omega
      rw [hK, List.find?_cons_of_neg (o :: rest) (by simp; omega), Prod.mk.eta]
    · rw [if_neg hgt, ih s f]
      have hK : max s (max o.1 (listMaxScore rest)) = max s (listMaxScore rest) := by omega
      rw [hK]
      by_cases hks : max s (listMaxScore rest) ≤ s
      · rw [List.find?_cons_of_pos rest (by simpa using hks),
          List.find?_cons_of_pos (o :: rest) (by simpa using hks)]
      · rw [List.find?_cons_of_neg rest (by simpa using hks),
          List.find?_cons_of_neg (o :: rest) (by simpa using hks),
          List.find?_cons_of_neg rest (by simp; omega)]

/-- C2: over any ordered list of `(score, frame)` observations, the
tracker's fold retains exactly the first observation whose score equals
the maximum score of the list (strictly-greater replacement, so ties keep
the earlier frame); in particular scores `[120, 200, 150]` select the
frame with score 200 and scores `[200, 200, 150]` select the first frame
with score 200. -/
theorem visibilityTracker_first_max :
    (∀ obs : List (Nat × String),
      trackVisibility obs = List.find? (fun o => decide (listMaxScore obs ≤ o.1)) obs) ∧
    trackVisibility [(120, "f0"), (200, "f1"), (150, "f2")] = some (200, "f1") ∧
    trackVisibility [(200, "f0"), (200, "f1"), (150, "f2")] = some (200, "f0") := by
  refine ⟨?_, by decide, by decide⟩
  intro obs
  match obs with
  | [] => rfl
  | o :: rest =>
    unfold trackVisibility
    rw [List.foldl_cons]
    show List.foldl _ (updateRecord none o.1 o.2) rest = _
    have hstep : updateRecord none o.1 o.2 = some (o.1, o.2) := rfl
    rw [hstep, foldl_updateRecord_eq_find rest o.1 o.2, listMaxScore_cons, Prod.mk.eta]

/-! ### Binarization on masks whose positive entries are uniform -/

theorem div_sum_eq_countPositive (M : Nat) :
    ∀ xs : List Nat, (∀ v ∈ xs, v = 0 ∨ v = M) →
      (xs.map (fun v => v / max 1 M)).sum = countPositive xs := by
  intro xs
  induction xs with
  | nil => intro _; rfl
  | cons a l ih =>
    intro h
    have ha := h a (by simp)
    have hl : ∀ v ∈ l, v = 0 ∨ v = M := fun v hv => h v (List.mem_cons_of_mem a hv)
    rw [List.map_cons, List.sum_cons, ih hl]
    unfold countPositive
    rcases ha with rfl | haM
    · rw [List.filter_cons_of_neg (by simp)]
      simp [countPositive]
    · by_cases hM : 0 < M
      · have hdiv : a / max 1 M = 1 := by
          rw [haM, Nat.max_eq_right hM]
          exact Nat.div_self hM
        rw [hdiv, List.filter_cons_of_pos (by simp; omega)]
        simp [countPositive]
        omega
      · have ha0 : a = 0 := by omega
        rw [List.filter_cons_of_neg (by simp [ha0])]
        simp [countPositive, ha0]

/-- C3 amended: the binarization `mask_data //= max(1, mask_data.max())`
sends a pixel to 1 exactly when it equals the mask's maximum, so the
claimed indicator behaviour (any positive pixel becomes 1, zero stays 0,
score = count of positive entries) holds exactly for masks whose positive
entries are all equal to the maximum — in particular for the binary
`{0, 255}` masks the pipeline consumes — and fails for other masks. -/
theorem binarize_indicator_uniform (xs : List Nat)
    (h : ∀ v ∈ xs, v = 0 ∨ v = maxVal xs) :
    (∀ i, i < xs.length →
      (xs.getD i 0 = 0 → (binarize xs).getD i 0 = 0) ∧
      (0 < xs.getD i 0 → (binarize xs).getD i 0 = 1)) ∧
    maskScore xs = countPositive xs := by
  constructor
  · intro i hi
    have hib : i < (binarize xs).length := by
      unfold binarize; rw [List.length_map]; exact hi
    have hmap : (binarize xs).getD i 0 = xs.getD i 0 / max 1 (maxVal xs) := by
      rw [List.getD_eq_getElem _ _ hib, List.getD_eq_getElem _ _ hi]
      unfold binarize
      exact List.getElem_map _
    rw [hmap]
    constructor
    · intro h0
      rw [h0]
      exact Nat.zero_div _
    · intro hpos
      have hmem : xs.getD i 0 ∈ xs := by
        rw [List.getD_eq_getElem _ _ hi]
        exact List.getElem_mem hi
      rcases h _ hmem with h0 | hM
      · omega
      · have hMpos : 0 < maxVal xs := hM ▸ hpos
        rw [hM, Nat.max_eq_right hMpos]
        exact Nat.div_self hMpos
  · unfold maskScore binarize
    exact div_sum_eq_countPositive (maxVal xs) xs h

/-- Closed instance of `binarize_indicator_uniform` on the binary mask
`[0, 255, 255]`. -/
theorem binarize_indicator_uniform_witness :
    (∀ i, i < [0, 255, 255].length →
      ([0, 255, 255].getD i 0 = 0 → (binarize [0, 255, 255]).getD i 0 = 0) ∧
      (0 < [0, 255, 255].getD i 0 → (binarize [0, 255, 255]).getD i 0 = 1)) ∧
    maskScore [0, 255, 255] = countPositive [0, 255, 255] :=
  binarize_indicator_uniform [0, 255, 255] (by decide)

/-! ### Stepping lemmas for the visibility scan -/

/-- The list of object ids currently present in `most_visible`, in
insertion order (the Python dict's key order). -/
def mvKeys (mv : MostVisible) : List String := mv.map (fun e => e.1)

theorem scanFrameDirs_cons_none {masks : String → String → Option (List Nat)}
    {resize : List Nat → Nat × Nat → List Nat} {file d : String} {W H : Nat}
    {rest : List String} {mv : MostVisible} (hm : masks d file = none) :
    scanFrameDirs masks resize file W H (d :: rest) mv = .error "FileNotFoundError" := by
  simp only [scanFrameDirs, hm]

theorem scanFrameDirs_cons_some {masks : String → String → Option (List Nat)}
    {resize : List Nat → Nat × Nat → List Nat} {file d : String} {W H : Nat}
    {rest : List String} {mv : MostVisible} {mask : List Nat}
    (hm : masks d file = some mask) :
    scanFrameDirs masks resize file W H (d :: rest) mv =
      scanFrameDirs masks resize file W H rest (updateMV mv d (maskScore mask) file) := by
  simp only [scanFrameDirs, hm]

theorem visibilityScan_cons_err {masks : String → String → Option (List Nat)}
    {resize : List Nat → Nat × Nat → List Nat} {dirs : List String} {file : String}
    {H W : Nat} {rest : List (String × Nat × Nat)} {mv : MostVisible} {e : String}
    (hs : scanFrameDirs masks resize file W H dirs mv = .error e) :
    visibilityScan masks resize dirs ((file, H, W) :: rest) mv = .error e := by
  simp only [visibilityScan, hs]

theorem visibilityScan_cons_ok {masks : String → String → Option (List Nat)}
    {resize : List Nat → Nat × Nat → List Nat} {dirs : List String} {file : String}
    {H W : Nat} {rest : List (String × Nat × Nat)} {mv mv1 : MostVisible}
    (hs : scanFrameDirs masks resize file W H dirs mv = .ok mv1) :
    visibilityScan masks resize dirs ((file, H, W) :: rest) mv =
      visibilityScan masks resize dirs rest mv1 := by
  simp only [visibilityScan, hs]

theorem updateMV_eq_of_lookup_none {mv : MostVisible} {d : String} (s : Nat) (f : String)
    (hl : lookupMV mv d = none) :
    updateMV mv d s f = mv ++ [(d, s, f)] := by
  unfold updateMV
  rw [hl]

theorem updateMV_eq_of_lookup_some {mv : MostVisible} {d : String} {s0 : Nat} {f0 : String}
    (s : Nat) (f : String) (hl : lookupMV mv d = some (s0, f0)) :
    updateMV mv d s f =
      if s > s0 then mv.map (fun e => if e.1 == d then (d, s, f) else e) else mv := by
  unfold updateMV
  rw [hl]

theorem lookupMV_eq_none_iff (mv : MostVisible) (d : String) :
    lookupMV mv d = none ↔ d ∉ mvKeys mv := by
  unfold lookupMV mvKeys
  rw [Option.map_eq_none', List.find?_eq_none]
  constructor
  · intro h hd
    rcases List.mem_map.mp hd with ⟨e, he, hed⟩
    exact h e he (by simp [hed])
  · intro h e he hed
    exact h (List.mem_map.mpr ⟨e, he, by simpa using hed⟩)

theorem mvKeys_updateMV (mv : MostVisible) (d : String) (s : Nat) (f : String) :
    mvKeys (updateMV mv d s f) =
      if d ∈ mvKeys mv then mvKeys mv else mvKeys mv ++ [d] := by
  cases hl : lookupMV mv d with
  | none =>
    rw [updateMV_eq_of_lookup_none s f hl, if_neg ((lookupMV_eq_none_iff mv d).mp hl)]
    unfold mvKeys
    simp
  | some p =>
    obtain ⟨s0, f0⟩ := p
    have hd : d ∈ mvKeys mv := by
      by_contra hc
      rw [(lookupMV_eq_none_iff mv d).mpr hc] at hl
      exact Option.noConfusion hl
    rw [updateMV_eq_of_lookup_some s f hl, if_pos hd]
    by_cases hgt : s > s0
    · rw [if_pos hgt]
      unfold mvKeys
      rw [List.map_map]
      apply List.map_congr_left
      intro e _
      by_cases hed : e.1 = d
      · simp [hed]
      · simp [hed]
    · rw [if_neg hgt]

theorem scanFrameDirs_keys (masks : String → String → Option (List Nat))
    (resize : List Nat → Nat × Nat → List Nat) (file : String) (W H : Nat) :
    ∀ (ds : List String) (mv mv2 : MostVisible), ds.Nodup →
      scanFrameDirs masks resize file W H ds mv = .ok mv2 →
      mvKeys mv2 = mvKeys mv ++ ds.filter (fun d => decide (d ∉ mvKeys mv)) := by
  intro ds
  induction ds with
  | nil =>
    intro mv mv2 _ h
    cases h
    simp
  | cons d rest ih =>
    intro mv mv2 hnd h
    have hnd2 := List.nodup_cons.mp hnd
    cases hm : masks d file with
    | none =>
      rw [scanFrameDirs_cons_none hm] at h
      exact absurd h (by simp)
    | some mask =>
      rw [scanFrameDirs_cons_some hm] at h
      have hkeys := ih (updateMV mv d (maskScore mask) file) mv2 hnd2.2 h
      rw [mvKeys_updateMV] at hkeys
      by_cases hd : d ∈ mvKeys mv
      · rw [if_pos hd] at hkeys
        rw [hkeys, List.filter_cons_of_neg (by simpa using hd)]
      · rw [if_neg hd] at hkeys
        rw [hkeys, List.filter_cons_of_pos (by simpa using hd)]
        have hfilter : rest.filter (fun x => decide (x ∉ mvKeys mv ++ [d])) =
            rest.filter (fun x => decide (x ∉ mvKeys mv)) := by
          apply List.filter_congr
          intro x hx
          have hxd : x ≠ d := by
            intro hc
            exact hnd2.1 (hc ▸ hx)
          simp [List.mem_append, hxd]
        rw [hfilter, List.append_assoc, List.singleton_append]

theorem sortedDirs_perm_eq (dirs dirs2 : List String) (hp : dirs2.Perm dirs) :
    sortedDirs dirs2 = sortedDirs dirs := by
  apply List.eq_of_perm_of_sorted (r := fun a b : String => a ≤ b)
  · exact (List.mergeSort_perm dirs2 _).trans (hp.trans (List.mergeSort_perm dirs _).symm)
  · exact List.sorted_mergeSort' dirs2
  · exact List.sorted_mergeSort' dirs

theorem visibilityScan_keys_preserved (masks : String → String → Option (List Nat))
    (resize : List Nat → Nat × Nat → List Nat) (dirs : List String) (hnd : dirs.Nodup) :
    ∀ (frames : List (String × Nat × Nat)) (mv mv2 : MostVisible),
      (∀ d ∈ dirs, d ∈ mvKeys mv) →
      visibilityScan masks resize dirs frames mv = .ok mv2 → mvKeys mv2 = mvKeys mv := by
  intro frames
  induction frames with
  | nil =>
    intro mv mv2 _ h
    cases h
    rfl
  | cons fr rest ih =>
    obtain ⟨file, H, W⟩ := fr
    intro mv mv2 hsub h
    cases hs : scanFrameDirs masks resize file W H dirs mv with
    | error e =>
      rw [visibilityScan_cons_err hs] at h
      exact absurd h (by simp)
    | ok mv1 =>
      rw [visibilityScan_cons_ok hs] at h
      have hk := scanFrameDirs_keys masks resize file W H dirs mv mv1 hnd hs
      have hfil : dirs.filter (fun d => decide (d ∉ mvKeys mv)) = [] := by
        rw [List.filter_eq_nil_iff]
        intro d hd
        simpa using hsub d hd
      rw [hfil, List.append_nil] at hk
      have hrest := ih mv1 mv2 (fun d hd => hk ▸ hsub d hd) h
      rw [hrest, hk]

/-- C4 amended: when the scan succeeds on a nonempty frame list with
distinct discovered ids, `most_visible` holds exactly one entry per
discovered ObjectId — every ObjectId observed at least once, with zero
scores included (a zero-score-only ObjectId still gets a row, contrary to
the original claim) — so the embedding table built with
`np.zeros((len(most_visible), …))` has one row per discovered id, and the
row index `dir_to_idx` of every id is determined by the lexicographically
sorted id order alone, independent of discovery order. -/
theorem embeddingTable_rows (masks : String → String → Option (List Nat))
    (resize : List Nat → Nat × Nat → List Nat) (dirs : List String)
    (frames : List (String × Nat × Nat)) (mv : MostVisible)
    (hnd : dirs.Nodup) (hne : frames ≠ [])
    (hok : visibilityScan masks resize dirs frames [] = .ok mv) :
    mvKeys mv = dirs ∧ mv.length = dirs.length ∧
    (∀ dirs2 : List String, dirs2.Perm dirs → ∀ d, dir_to_idx dirs2 d = dir_to_idx dirs d) := by
  obtain ⟨fr, rest, rfl⟩ := List.exists_cons_of_ne_nil hne
  obtain ⟨file, H, W⟩ := fr
  cases hs : scanFrameDirs masks resize file W H dirs [] with
  | error e =>
    rw [visibilityScan_cons_err hs] at hok
    exact absurd hok (by simp)
  | ok mv1 =>
    rw [visibilityScan_cons_ok hs] at hok
    have hk1 : mvKeys mv1 = dirs := by
      have hk := scanFrameDirs_keys masks resize file W H dirs [] mv1 hnd hs
      simpa [mvKeys] using hk
    have hkeys : mvKeys mv = dirs := by
      rw [visibilityScan_keys_preserved masks resize dirs hnd rest mv1 mv
        (fun d hd => hk1 ▸ hd) hok, hk1]
    refine ⟨hkeys, ?_, ?_⟩
    · have hlen : (mvKeys mv).length = dirs.length := by rw [hkeys]
      simpa [mvKeys] using hlen
    · intro dirs2 hp d
      unfold dir_to_idx
      rw [sortedDirs_perm_eq dirs dirs2 hp]

/-- Closed instance of `embeddingTable_rows`: two ObjectIds, one frame,
every mask present. -/
theorem embeddingTable_rows_witness :
    mvKeys [("b", 1, "f"), ("a", 1, "f")] = ["b", "a"] ∧
    ([("b", 1, "f"), ("a", 1, "f")] : MostVisible).length = (["b", "a"] : List String).length ∧
    (∀ dirs2 : List String, dirs2.Perm ["b", "a"] →
      ∀ d, dir_to_idx dirs2 d = dir_to_idx ["b", "a"] d) :=
  embeddingTable_rows (fun _ _ => some [1]) (fun m _ => m) ["b", "a"] [("f", 1, 1)]
    [("b", 1, "f"), ("a", 1, "f")] (by decide) (by decide) (by rfl)

/-- C4 counterexample: an ObjectId observed only with an all-zero mask
(score 0 at every observation) still receives an entry in `most_visible`,
hence a row in the table, while the claim says ObjectIds never observed
with a nonzero score contribute no row. -/
theorem embeddingTable_zeroScore_row_cex :
    maskScore [0] = 0 ∧
    visibilityScan (fun _ _ => some [0]) (fun m _ => m) ["a"] [("f", 1, 1)] [] =
      Except.ok [("a", 0, "f")] ∧
    ([("a", 0, "f")] : MostVisible).length = 1 := by
  refine ⟨rfl, rfl, rfl⟩

theorem scanFrameDirs_ok_masks_present (masks : String → String → Option (List Nat))
    (resize : List Nat → Nat × Nat → List Nat) (file : String) (W H : Nat) :
    ∀ (ds : List String) (mv mv2 : MostVisible),
      scanFrameDirs masks resize file W H ds mv = .ok mv2 →
      ∀ d ∈ ds, masks d file ≠ none := by
  intro ds
  induction ds with
  | nil =>
    intro mv mv2 _ d hd
    cases hd
  | cons d0 rest ih =>
    intro mv mv2 h d hd
    cases hm : masks d0 file with
    | none =>
      rw [scanFrameDirs_cons_none hm] at h
      exact absurd h (by simp)
    | some mask =>
      rw [scanFrameDirs_cons_some hm] at h
      rcases List.mem_cons.mp hd with rfl | hdr
      · rw [hm]
        exact fun hc => Option.noConfusion hc
      · exact ih _ mv2 h d hdr

theorem scan_ok_all_masks_present (masks : String → String → Option (List Nat))
    (resize : List Nat → Nat × Nat → List Nat) (dirs : List String) :
    ∀ (frames : List (String × Nat × Nat)) (mv mv2 : MostVisible),
      visibilityScan masks resize dirs frames mv = .ok mv2 →
      ∀ fr ∈ frames, ∀ d ∈ dirs, masks d fr.1 ≠ none := by
  intro frames
  induction frames with
  | nil =>
    intro mv mv2 _ fr hfr
    cases hfr
  | cons fr0 rest ih =>
    obtain ⟨file, H, W⟩ := fr0
    intro mv mv2 h fr hfr
    cases hs : scanFrameDirs masks resize file W H dirs mv with
    | error e =>
      rw [visibilityScan_cons_err hs] at h
      exact absurd h (by simp)
    | ok mv1 =>
      rw [visibilityScan_cons_ok hs] at h
      rcases List.mem_cons.mp hfr with rfl | hfr2
      · intro d hd
        exact scanFrameDirs_ok_masks_present masks resize file W H dirs mv mv1 hs d hd
      · exact ih mv1 mv2 h fr hfr2

/-- C6 amended: a missing per-view mask for a discovered ObjectId is not
skipped — `Image.open` raises, so the scan aborts with an error: whenever
some frame of the list lacks the mask of some discovered id, the scan
cannot succeed and returns an error. -/
theorem missingMask_aborts_scan (masks : String → String → Option (List Nat))
    (resize : List Nat → Nat × Nat → List Nat) (dirs : List String)
    (frames : List (String × Nat × Nat)) (file d : String) (H W : Nat)
    (hfr : (file, H, W) ∈ frames) (hd : d ∈ dirs) (hm : masks d file = none) :
    ∃ e, visibilityScan masks resize dirs frames [] = .error e := by
  cases h : visibilityScan masks resize dirs frames [] with
  | error e => exact ⟨e, rfl⟩
  | ok mv2 =>
    exact absurd hm
      (scan_ok_all_masks_present masks resize dirs frames [] mv2 h (file, H, W) hfr d hd)

/-- Closed instance of `missingMask_aborts_scan` with the single mask
absent. -/
theorem missingMask_aborts_scan_witness :
    ∃ e, visibilityScan (fun _ _ => none) (fun m _ => m) ["a"] [("f", 1, 1)] [] =
      .error e :=
  missingMask_aborts_scan (fun _ _ => none) (fun m _ => m) ["a"] [("f", 1, 1)]
    "f" "a" 1 1 (by decide) (by decide) rfl

/-- C6 counterexample: on a concrete input whose only (frame, ObjectId)
mask is absent, the scan returns an error instead of skipping the pair and
succeeding. -/
theorem missingMask_error_cex :
    visibilityScan (fun _ _ => none) (fun m _ => m) ["a"] [("f", 1, 1)] [] =
      Except.error "FileNotFoundError" := rfl

/-! ### Driver: the WARNED global -/

theorem processImageSize_small (w h : Nat) (warned : Option Bool) (hh : h ≤ 1080) :
    processImageSize (-1) warned w h = .ok (warned, 1) := by
  have hno : ¬ (1080 < h) := by omega
  simp [processImageSize, hno]

theorem processImageSize_large_unassigned (w h : Nat) (hh : 1080 < h) :
    processImageSize (-1) none w h = .error "NameError" := by
  simp [processImageSize, hh]

theorem driverScan_cons_ok {downsample : Int} {warned warned2 : Option Bool}
    {w h : Nat} {scale : ℚ} {rest : List (Nat × Nat)}
    (hp : processImageSize downsample warned w h = .ok (warned2, scale)) :
    driverScan downsample warned ((w, h) :: rest) =
      match driverScan downsample warned2 rest with
      | .error e => .error e
      | .ok (warned3, scales) => .ok (warned3, scale :: scales) := by
  simp only [driverScan, hp]

theorem driverScan_cons_err {downsample : Int} {warned : Option Bool}
    {w h : Nat} {e : String} {rest : List (Nat × Nat)}
    (hp : processImageSize downsample warned w h = .error e) :
    driverScan downsample warned ((w, h) :: rest) = .error e := by
  simp only [driverScan, hp]

/-- C9: with the default `--downsample -1`, the driver reads the global
`WARNED` before any assignment to it, so the first image of height above
1080 makes the run raise `NameError` instead of printing the warning and
rescaling; when every image has height at most 1080 the branch is never
reached and the loop completes with every rescale factor equal to 1 and
`WARNED` still unassigned. -/
theorem warned_read_before_assignment :
    (∀ sizes : List (Nat × Nat), (∀ s ∈ sizes, s.2 ≤ 1080) →
      driverScan (-1) none sizes = .ok (none, sizes.map (fun _ => (1 : ℚ)))) ∧
    (∀ (pre : List (Nat × Nat)) (w h : Nat) (post : List (Nat × Nat)),
      (∀ s ∈ pre, s.2 ≤ 1080) → 1080 < h →
      driverScan (-1) none (pre ++ (w, h) :: post) = .error "NameError") := by
  constructor
  · intro sizes
    induction sizes with
    | nil => intro _; rfl
    | cons s rest ih =>
      obtain ⟨w, h⟩ := s
      intro hall
      have hh : h ≤ 1080 := hall (w, h) (by simp)
      have hrest := ih (fun x hx => hall x (List.mem_cons_of_mem _ hx))
      rw [driverScan_cons_ok (processImageSize_small w h none hh), hrest, List.map_cons]
  · intro pre
    induction pre with
    | nil =>
      intro w h post _ hh
      rw [List.nil_append]
      exact driverScan_cons_err (processImageSize_large_unassigned w h hh)
    | cons s rest ih =>
      obtain ⟨w0, h0⟩ := s
      intro w h post hall hh
      have hh0 : h0 ≤ 1080 := hall (w0, h0) (by simp)
      have hrest := ih w h post (fun x hx => hall x (List.mem_cons_of_mem _ hx)) hh
      rw [List.cons_append,
        driverScan_cons_ok (processImageSize_small w0 h0 none hh0), hrest]

/-- Closed instance of `warned_read_before_assignment`: an all-small input
completes, and a single 1081-pixel-high image raises `NameError`. -/
theorem warned_read_before_assignment_witness :
    driverScan (-1) none [(100, 1080)] = .ok (none, [(100, 1080)].map (fun _ => (1 : ℚ))) ∧
    driverScan (-1) none ([] ++ (100, 1081) :: []) = .error "NameError" :=
  ⟨warned_read_before_assignment.1 [(100, 1080)] (by decide),
   warned_read_before_assignment.2 [] 100 1081 [] (by simp) (by decide)⟩

/-! ### The discarded resize -/

theorem scanFrameDirs_resize_irrelevant (masks : String → String → Option (List Nat))
    (r1 r2 : List Nat → Nat × Nat → List Nat) (file : String) (W H W2 H2 : Nat) :
    ∀ (ds : List String) (mv : MostVisible),
      scanFrameDirs masks r1 file W H ds mv = scanFrameDirs masks r2 file W2 H2 ds mv := by
  intro ds
  induction ds with
  | nil => intro mv; rfl
  | cons d rest ih =>
    intro mv
    cases hm : masks d file with
    | none => rw [scanFrameDirs_cons_none hm, scanFrameDirs_cons_none hm]
    | some mask => rw [scanFrameDirs_cons_some hm, scanFrameDirs_cons_some hm, ih]

/-- C10: `mask.resize((W, H))` returns a new image that the source never
binds, so the visibility scan's result is computed from each mask at its
stored file resolution: it does not depend on the resize operation at all,
nor on the working height and width of the (possibly downsampled) RGB
frames. -/
theorem score_independent_of_resolution :
    ∀ (masks : String → String → Option (List Nat))
      (r1 r2 : List Nat → Nat × Nat → List Nat) (dirs : List String)
      (files : List String) (H W H2 W2 : Nat) (mv : MostVisible),
      visibilityScan masks r1 dirs (files.map (fun f => (f, H, W))) mv =
      visibilityScan masks r2 dirs (files.map (fun f => (f, H2, W2))) mv := by
  intro masks r1 r2 dirs files H W H2 W2
  induction files with
  | nil => intro mv; rfl
  | cons f rest ih =>
    intro mv
    rw [List.map_cons, List.map_cons]
    cases hs : scanFrameDirs masks r2 f W2 H2 dirs mv with
    | error e =>
      have hs1 : scanFrameDirs masks r1 f W H dirs mv = .error e :=
        (scanFrameDirs_resize_irrelevant masks r1 r2 f W H W2 H2 dirs mv).trans hs
      rw [visibilityScan_cons_err hs1, visibilityScan_cons_err hs]
    | ok mv1 =>
      have hs1 : scanFrameDirs masks r1 f W H dirs mv = .ok mv1 :=
        (scanFrameDirs_resize_irrelevant masks r1 r2 f W H W2 H2 dirs mv).trans hs
      rw [visibilityScan_cons_ok hs1, visibilityScan_cons_ok hs, ih]

end GauFRe
